import Mathlib

/-!
Verification development for the open-webui-spider-rs service
(`src/src/main.rs`): a shallow embedding of the crawl orchestration and
caching layer, with theorems checking the natural-language specification
against the code.

External collaborators (the `spider` crawl engine, the markdown
transformer, the `moka` cache, the network) are modelled as explicit
inputs: the engine's event stream is a list of page events, the
transformer is a function parameter, and the cache is a timestamped
association list following the documented time-to-live / max-capacity
semantics the code configures.
-/

namespace SpiderRs

/-- A page event emitted by the crawl engine's subscription stream
(`spider::page::Page` as used in `main.rs`): its resolved URL
(`get_url`), its `is_empty` flag, and raw content. -/
structure Page where
  get_url : String
  is_empty : Bool
  content : String
deriving DecidableEq, Repr

/-- Embedding of `crawl_single_page` (main.rs lines 108-127): consume the event
stream in emission order; skip events flagged empty; return the first
event whose resolved URL equals the requested URL; if the stream ends
with no match, return none. -/
def crawl_single_page (events : List Page) (target_url : String) : Option Page :=
  match events with
  | [] => none
  | p :: rest =>
    if p.is_empty then crawl_single_page rest target_url
    else if p.get_url = target_url then some p
    else crawl_single_page rest target_url

/-- The events actually received by the consumer loop of
`crawl_single_page` (main.rs lines 117-124): the loop returns as soon as
the first non-empty matching event is seen, so later events are never
received. -/
def consumed_events (events : List Page) (target_url : String) : List Page :=
  match events with
  | [] => []
  | p :: rest =>
    if p.is_empty then p :: consumed_events rest target_url
    else if p.get_url = target_url then [p]
    else p :: consumed_events rest target_url

/-- Observable session-control actions of a crawl job. -/
inductive EngineAction
  | recv (p : Page)
  | crawl_smart_finished
  | unsubscribe
deriving DecidableEq, Repr

/-- The action trace of the consumer loop of `crawl_single_page`
(main.rs lines 117-124): the loop body only receives events; it contains
no call that unsubscribes or otherwise stops the engine session. -/
def consumer_actions (events : List Page) (target_url : String) : List EngineAction :=
  match events with
  | [] => []
  | p :: rest =>
    if p.is_empty then EngineAction.recv p :: consumer_actions rest target_url
    else if p.get_url = target_url then [EngineAction.recv p]
    else EngineAction.recv p :: consumer_actions rest target_url

/-- The action trace of the task spawned by `crawl_single_page`
(main.rs lines 112-115): it awaits `crawl_smart()` to completion and
only then calls `unsubscribe()`. -/
def spawned_task_actions : List EngineAction :=
  [EngineAction.crawl_smart_finished, EngineAction.unsubscribe]

/-- Log severity of the `log` crate macros used in main.rs. -/
inductive LogLevel
  | info
  | warn
  | error
deriving DecidableEq, Repr

/-- One emitted log line. -/
structure LogEntry where
  level : LogLevel
  message : String
deriving DecidableEq, Repr

/-- Embedding of `CachedPage` (main.rs lines 59-63): the value stored in the cache,
carrying the source URL and the transformed markdown content. -/
structure CachedPage where
  source : String
  content : String
deriving DecidableEq, Repr

/-- Embedding of `crawl_page_uncached` (main.rs lines 129-193).  The fallible
`Website::build()` call (lines 153-171) is modelled by the `build`
input; the engine's emitted page events by `events`; the markdown
transformer `content::transform_content` by the function `transform`;
the measured elapsed milliseconds by `elapsed_ms`.  The `?` on `build`
(line 171) is the only error exit; a stream that ends without a match
yields `Ok(None)` after a warning log (lines 184-191). -/
def crawl_page_uncached (url : String) (build : Except String Unit)
    (events : List Page) (transform : Page → String) (elapsed_ms : Nat) :
    Except String (Option CachedPage) × List LogEntry :=
  match build with
  | Except.error e =>
      (Except.error ("Failed to build website crawler: " ++ e), [])
  | Except.ok _ =>
    match crawl_single_page events url with
    | some page =>
        (Except.ok (some { source := url, content := transform page }),
         [⟨LogLevel.info, s!"Crawled {url} in {elapsed_ms}ms"⟩])
    | none =>
        (Except.ok none,
         [⟨LogLevel.warn, s!"No matching page for {url} after {elapsed_ms}ms"⟩])

/-- Whether an `Except` value is the error case (Rust `Result::is_err`). -/
def exceptIsErr {ε α : Type} : Except ε α → Bool
  | Except.error _ => true
  | Except.ok _ => false

/-- One cache slot: the stored value and the instant it was inserted. -/
structure CacheEntry where
  value : CachedPage
  inserted_at : Nat
deriving DecidableEq, Repr

/-- Modelled from the spec: the `moka::future::Cache` (an external
library; only its builder call appears in main.rs lines 289-292) as a
URL-keyed association list with the documented semantics: each entry
expires `ttl_seconds` after insertion regardless of access, and the
entry count is bounded by `max_entries` (exact eviction order is not
guaranteed, so this model evicts the oldest insertions first). -/
structure MokaCache where
  ttl_seconds : Nat
  max_entries : Nat
  entries : List (String × CacheEntry)
deriving DecidableEq, Repr

/-- Embedding of `Cache::builder().time_to_live(..).max_capacity(..).build()`
(main.rs lines 289-292): an empty cache with the configured bounds. -/
def cache_builder (ttl_seconds max_entries : Nat) : MokaCache :=
  { ttl_seconds := ttl_seconds, max_entries := max_entries, entries := [] }

/-- Modelled from the spec: `cache.get(&url)` at instant `now`.  An
entry answers a hit only while it is fresh, i.e. strictly less than
`ttl_seconds` after its insertion; with `ttl_seconds = 0` nothing is
ever fresh. -/
def cache_get (c : MokaCache) (now : Nat) (key : String) : Option CachedPage :=
  match c.entries.find? (fun e => e.1 == key) with
  | some (_, entry) =>
      if now < entry.inserted_at + c.ttl_seconds then some entry.value else none
  | none => none

/-- Modelled from the spec: `cache.insert(url, value)` at instant
`now`.  Any previous entry for the key is replaced; when the count
would exceed `max_entries`, entries beyond the capacity are evicted;
with `max_entries = 0` nothing is admitted. -/
def cache_insert (c : MokaCache) (now : Nat) (key : String) (v : CachedPage) :
    MokaCache :=
  let kept := c.entries.filter (fun e => e.1 ≠ key)
  { c with entries := ((key, ⟨v, now⟩) :: kept).take c.max_entries }

/-- Whether the cache currently holds an entry (fresh or not) for `key`. -/
def cache_has_key (c : MokaCache) (key : String) : Bool :=
  (c.entries.find? (fun e => e.1 == key)).isSome

/-- Embedding of `Metadata` (main.rs lines 54-57). -/
structure Metadata where
  source : String
deriving DecidableEq, Repr

/-- Embedding of `CrawlResponse` (main.rs lines 48-52): one entry of the batch
response body. -/
structure CrawlResponse where
  page_content : String
  metadata : Metadata
deriving DecidableEq, Repr

/-- The per-URL inputs that `crawl_page_uncached` draws from the
outside world: the result of the engine-session build, the event
stream the engine would emit for that URL, the transformer, and the
elapsed-time measurement.  All are fixed per URL, modelling one
deterministic execution of the batch. -/
structure CrawlEnv where
  build : String → Except String Unit
  events : String → List Page
  transform : Page → String
  elapsed_ms : String → Nat

/-- Evaluation of `crawl_page_uncached(&url, ..)` for a URL under an environment,
keeping only the returned `Result` (the logs are examined separately). -/
def run_uncached (env : CrawlEnv) (url : String) :
    Except String (Option CachedPage) :=
  (crawl_page_uncached url (env.build url) (env.events url)
    env.transform (env.elapsed_ms url)).1

/-- The body of one spawned per-URL task of `crawl_handler`
(main.rs lines 214-240): on a cache hit, answer from the cached entry
without crawling; on a miss, run `crawl_page_uncached`; on success
insert the result into the cache and answer; on `Ok(None)` or `Err`
answer nothing.  Returns the optional response entry, the cache after
the task, and how many times the crawl engine was invoked (0 or 1). -/
def handle_url (env : CrawlEnv) (cache : MokaCache) (now : Nat) (url : String) :
    Option CrawlResponse × MokaCache × Nat :=
  match cache_get cache now url with
  | some cached =>
      (some { page_content := cached.content,
              metadata := { source := cached.source } }, cache, 0)
  | none =>
    match run_uncached env url with
    | Except.ok (some cached) =>
        (some { page_content := cached.content,
                metadata := { source := cached.source } },
         cache_insert cache now url cached, 1)
    | Except.ok none => (none, cache, 1)
    | Except.error _ => (none, cache, 1)

/-- The fan-out and collection of `crawl_handler` (main.rs lines
203-251) over the URLs of the request, as one sequential
interleaving of the spawned tasks: each URL's task runs `handle_url`,
failed or empty outcomes contribute nothing (lines 234-238, 245-247),
and the cache state is threaded through.  Returns the collected
response entries, the final cache, and the total number of engine
invocations. -/
def crawl_tasks (env : CrawlEnv) (cache : MokaCache) (now : Nat) :
    List String → List CrawlResponse × MokaCache × Nat
  | [] => ([], cache, 0)
  | url :: rest =>
    let step := handle_url env cache now url
    let next := crawl_tasks env step.2.1 now rest
    (step.1.toList ++ next.1, next.2.1, step.2.2 + next.2.2)

/-- Embedding of `crawl_handler` (main.rs lines 203-251): collect the per-URL
results and answer `Json(results)` (line 250), which always carries
HTTP status 200.  Returns the status code, the response array and the
final cache. -/
def crawl_handler (env : CrawlEnv) (cache : MokaCache) (now : Nat)
    (urls : List String) : Nat × List CrawlResponse × MokaCache :=
  (200, (crawl_tasks env cache now urls).1, (crawl_tasks env cache now urls).2.1)

/-- Outcome of the health probe's HTTP request
(`state.http_client.get(..).send().await`, main.rs line 99): either a
response with some status code, or a connection failure / timeout. -/
inductive ProbeResult
  | response (status : Nat)
  | failure
deriving DecidableEq, Repr

/-- Embedding of `StatusCode::is_success` of the `http` crate: 200 ≤ status ≤ 299. -/
def status_is_success (status : Nat) : Bool :=
  decide (200 ≤ status) && decide (status < 300)

/-- Embedding of `health_check` (main.rs lines 88-106): an unset engine endpoint
answers 503 "not configured"; a probe response with a success status
answers 200 "OK"; any other response, connection failure or timeout
answers 503 "unreachable". -/
def health_check (chrome_connection_url : Option String)
    (probe : ProbeResult) : Nat × String :=
  match chrome_connection_url with
  | none => (503, "Chromium connection URL not configured")
  | some _ =>
    match probe with
    | ProbeResult.response s =>
        if status_is_success s then (200, "OK")
        else (503, "Chromium instance unreachable")
    | ProbeResult.failure => (503, "Chromium instance unreachable")

/-- The probe timeout configured on the shared HTTP client
(`reqwest::Client::builder().timeout(Duration::from_secs(3))`,
main.rs lines 284-287), in seconds. -/
def http_client_timeout_secs : Nat := 3

/-- Embedding of `Settings` (main.rs lines 27-33). -/
structure Settings where
  chrome_connection_url : Option String
  cache_ttl_seconds : Nat
  cache_max_entries : Nat
  server_port : Nat
deriving DecidableEq, Repr

/-- The startup handling of degenerate cache settings
(main.rs lines 277-292): a zero TTL or zero capacity only emits a
warning log; construction then proceeds unconditionally to
`cache_builder`, so there is no rejection path for these values. -/
def startup_cache (s : Settings) : List LogEntry × MokaCache :=
  ((if s.cache_ttl_seconds = 0 then
      [⟨LogLevel.warn, "Cache TTL is set to 0; caching is effectively disabled."⟩]
    else []) ++
   (if s.cache_max_entries = 0 then
      [⟨LogLevel.warn, "Cache max entries is set to 0; caching is effectively disabled."⟩]
    else []),
   cache_builder s.cache_ttl_seconds s.cache_max_entries)

/-- What happens to a pending signal future of `shutdown_signal`:
the signal arrived, the handler failed to install, or the handler is
installed and still waiting. -/
inductive SignalOutcome
  | received
  | install_failed (err : String)
  | pending
deriving DecidableEq, Repr

/-- State of one branch future of the `select!` in `shutdown_signal`:
whether it has resolved, and the log lines it emitted. -/
structure FutureState where
  completes : Bool
  logs : List LogEntry
deriving DecidableEq, Repr

/-- The `ctrl_c` branch of `shutdown_signal` (main.rs lines 318-322):
when the handler fails to install, the block logs a warning and then
falls through, so the future resolves just as if a signal had
arrived. -/
def ctrl_c_future : SignalOutcome → FutureState
  | SignalOutcome.received => ⟨true, []⟩
  | SignalOutcome.install_failed err =>
      ⟨true, [⟨LogLevel.warn, "Failed to install Ctrl+C handler: " ++ err⟩]⟩
  | SignalOutcome.pending => ⟨false, []⟩

/-- The `terminate` branch of `shutdown_signal` (main.rs lines
324-334): when the SIGTERM handler fails to install, the `Err` arm
logs a warning and the block falls through, so the future resolves. -/
def terminate_future : SignalOutcome → FutureState
  | SignalOutcome.received => ⟨true, []⟩
  | SignalOutcome.install_failed err =>
      ⟨true, [⟨LogLevel.warn, "Failed to install SIGTERM handler: " ++ err⟩]⟩
  | SignalOutcome.pending => ⟨false, []⟩

/-- Embedding of `shutdown_signal` (main.rs lines 317-345): the `select!` resolves
as soon as either branch future resolves, then logs the shutdown
line; the resolution of this future is what triggers
`with_graceful_shutdown` in `main` (line 312), i.e. the server begins
shutting down exactly when this returns a completed state. -/
def shutdown_signal (ctrl_c : SignalOutcome) (terminate : SignalOutcome) :
    FutureState :=
  let fc := ctrl_c_future ctrl_c
  let ft := terminate_future terminate
  if fc.completes then
    ⟨true, fc.logs ++ [⟨LogLevel.info, "Shutdown signal received, stopping server."⟩]⟩
  else if ft.completes then
    ⟨true, ft.logs ++ [⟨LogLevel.info, "Shutdown signal received, stopping server."⟩]⟩
  else ⟨false, []⟩

/-- Apply a sequence of inserts `(key, value, instant)` to a cache. -/
def cache_insert_all (c : MokaCache) : List (String × CachedPage × Nat) → MokaCache
  | [] => c
  | (k, v, t) :: rest => cache_insert_all (cache_insert c t k v) rest

/-- Whether a URL's uncached crawl produces no page: either the
engine session fails to build (`Err`) or the stream ends with no
match (`Ok(None)`).  Such a URL is the "failing or empty-result" case
of the orchestrator. -/
def uncached_yields_none (env : CrawlEnv) (url : String) : Bool :=
  match run_uncached env url with
  | Except.ok (some _) => false
  | Except.ok none => true
  | Except.error _ => true

/-- How many URLs of the batch produce a response entry, with the
cache state threaded exactly as in `crawl_tasks`. -/
def yielded_count (env : CrawlEnv) (cache : MokaCache) (now : Nat) :
    List String → Nat
  | [] => 0
  | url :: rest =>
    (if (handle_url env cache now url).1.isSome then 1 else 0)
      + yielded_count env (handle_url env cache now url).2.1 now rest

/-- The cache's key discipline in `crawl_handler`: every stored
value's `source` field equals the key it is stored under (the only
insert, main.rs line 226, stores under `url` the value built with
`source: url` at line 180). -/
def cache_sources_consistent (c : MokaCache) : Prop :=
  ∀ e ∈ c.entries, e.2.value.source = e.1

/-- A sample execution environment for concrete evaluations:
`https://bad.test` fails to build an engine session,
`https://none.test` emits no events, and every other URL emits exactly
one non-empty event for itself, transformed to the string "md". -/
def sample_env : CrawlEnv where
  build := fun w =>
    if w = "https://bad.test" then Except.error "bad chrome config" else Except.ok ()
  events := fun w =>
    if w = "https://none.test" then []
    else [{ get_url := w, is_empty := false, content := "<html>" }]
  transform := fun _ => "md"
  elapsed_ms := fun _ => 7

/-- The function `crawl_single_page` returns exactly the first event that is
non-empty and matches the target URL. -/
theorem crawl_single_page_eq_find (events : List Page) (target : String) :
    crawl_single_page events target
      = events.find? (fun p => !p.is_empty && p.get_url == target) := by
  induction events with
  | nil => rfl
  | cons p rest ih =>
    by_cases he : p.is_empty = true
    · simp [crawl_single_page, List.find?, he, ih]
    · by_cases hu : p.get_url = target
      · simp [crawl_single_page, List.find?, he, hu]
      · have hb : (p.get_url == target) = false := by
          simp [hu]
        simp [crawl_single_page, List.find?, he, hu, hb, ih]

/-- C4: within a single crawl job, page events are consumed in
engine-emission order (the consumed events form an initial segment of
the emitted stream), events flagged empty are skipped, and the page
returned as the match is the first non-empty event whose resolved URL
equals the requested URL. -/
theorem C4_first_nonempty_match_wins (events : List Page) (target : String) :
    crawl_single_page events target
      = events.find? (fun p => !p.is_empty && p.get_url == target) ∧
    ∃ k, consumed_events events target = events.take k := by
  refine ⟨crawl_single_page_eq_find events target, ?_⟩
  induction events with
  | nil => exact ⟨0, rfl⟩
  | cons p rest ih =>
    obtain ⟨k, hk⟩ := ih
    by_cases he : p.is_empty = true
    · exact ⟨k + 1, by simp [consumed_events, he, hk]⟩
    · by_cases hu : p.get_url = target
      · exact ⟨1, by simp [consumed_events, he, hu]⟩
      · exact ⟨k + 1, by simp [consumed_events, he, hu, hk]⟩

/-- C1 counterexample: with two non-empty events where the first one
matches, `crawl_single_page` finds its match, yet the consumer loop's
action trace contains no unsubscribe — the session-stopping
`unsubscribe()` is sequenced in the spawned task strictly after
`crawl_smart()` completes, so the session is not told to stop at the
match point. -/
theorem C1_no_unsubscribe_at_match :
    (crawl_single_page
        [⟨"https://a.test", false, "a"⟩, ⟨"https://b.test", false, "b"⟩]
        "https://a.test").isSome = true ∧
    EngineAction.unsubscribe ∉
      consumer_actions
        [⟨"https://a.test", false, "a"⟩, ⟨"https://b.test", false, "b"⟩]
        "https://a.test" ∧
    spawned_task_actions.head? = some EngineAction.crawl_smart_finished ∧
    spawned_task_actions.getLast? = some EngineAction.unsubscribe := by
  refine ⟨by decide, by decide, rfl, rfl⟩

/-- C1 (amended): once the first non-empty event matching the
requested URL is observed, the job stops consuming further events —
no event after the match is received — but it does not unsubscribe at
that point: the consumer loop performs no session-control action, and
the explicit unsubscribe happens in the spawned task only after the
engine's `crawl_smart` completes on its own. -/
theorem C1_stops_consuming_after_match (pre post : List Page) (m : Page)
    (target : String)
    (hpre : ∀ p ∈ pre, p.is_empty = true ∨ p.get_url ≠ target)
    (hm : m.is_empty = false) (hurl : m.get_url = target) :
    crawl_single_page (pre ++ m :: post) target = some m ∧
    consumed_events (pre ++ m :: post) target = pre ++ [m] ∧
    EngineAction.unsubscribe ∉ consumer_actions (pre ++ m :: post) target ∧
    spawned_task_actions
      = [EngineAction.crawl_smart_finished, EngineAction.unsubscribe] := by
  induction pre with
  | nil =>
    refine ⟨?_, ?_, ?_, rfl⟩
    · simp [crawl_single_page, hm, hurl]
    · simp [consumed_events, hm, hurl]
    · simp [consumer_actions, hm, hurl]
  | cons p pre' ih =>
    have hp := hpre p (by simp)
    have hrest : ∀ q ∈ pre', q.is_empty = true ∨ q.get_url ≠ target :=
      fun q hq => hpre q (by simp [hq])
    obtain ⟨ih1, ih2, ih3, _⟩ := ih hrest
    rcases hp with hpe | hpu
    · refine ⟨?_, ?_, ?_, rfl⟩
      · simpa [crawl_single_page, hpe] using ih1
      · simpa [consumed_events, hpe] using ih2
      · simp only [List.cons_append, consumer_actions, hpe, if_pos]
        intro hmem
        rcases List.mem_cons.mp hmem with h | h
        · exact EngineAction.noConfusion h
        · exact ih3 h
    · by_cases hpe : p.is_empty = true
      · refine ⟨?_, ?_, ?_, rfl⟩
        · simpa [crawl_single_page, hpe] using ih1
        · simpa [consumed_events, hpe] using ih2
        · simp only [List.cons_append, consumer_actions, hpe, if_pos]
          intro hmem
          rcases List.mem_cons.mp hmem with h | h
          · exact EngineAction.noConfusion h
          · exact ih3 h
      · refine ⟨?_, ?_, ?_, rfl⟩
        · simpa [crawl_single_page, hpe, hpu] using ih1
        · simpa [consumed_events, hpe, hpu] using ih2
        · simp only [List.cons_append, consumer_actions, hpe, hpu, if_neg]
          intro hmem
          rcases List.mem_cons.mp hmem with h | h
          · exact EngineAction.noConfusion h
          · exact ih3 h

/-- Witness for the amended C1 theorem on a concrete stream: an empty
event, then the match, then one further event that is never consumed. -/
theorem C1_stops_consuming_after_match_witness :
    crawl_single_page
      [⟨"https://skip.test", true, ""⟩, ⟨"https://a.test", false, "c"⟩,
       ⟨"https://b.test", false, "d"⟩] "https://a.test"
      = some ⟨"https://a.test", false, "c"⟩ ∧
    consumed_events
      [⟨"https://skip.test", true, ""⟩, ⟨"https://a.test", false, "c"⟩,
       ⟨"https://b.test", false, "d"⟩] "https://a.test"
      = [⟨"https://skip.test", true, ""⟩, ⟨"https://a.test", false, "c"⟩] := by
  have h := C1_stops_consuming_after_match
    [⟨"https://skip.test", true, ""⟩] [⟨"https://b.test", false, "d"⟩]
    ⟨"https://a.test", false, "c"⟩ "https://a.test" (by decide) rfl rfl
  exact ⟨h.1, h.2.1⟩

/-- C5: `crawl_page_uncached` returns an error if and only if the
engine session fails to be built; when the session builds but the
event stream ends with no matching page, it returns `Ok(None)` with a
single warning log carrying the elapsed time — never an error. -/
theorem C5_error_iff_build_failure (url : String) (build : Except String Unit)
    (events : List Page) (transform : Page → String) (elapsed_ms : Nat) :
    (exceptIsErr (crawl_page_uncached url build events transform elapsed_ms).1
      = exceptIsErr build) ∧
    (build = Except.ok () → crawl_single_page events url = none →
      crawl_page_uncached url build events transform elapsed_ms
        = (Except.ok none,
           [⟨LogLevel.warn, s!"No matching page for {url} after {elapsed_ms}ms"⟩])) := by
  constructor
  · cases build with
    | error e => rfl
    | ok u =>
      cases h : crawl_single_page events url <;>
        simp [crawl_page_uncached, h, exceptIsErr]
  · intro hb hn
    subst hb
    simp [crawl_page_uncached, hn]

/-- Witness for C5 at a concrete input: an engine session that builds
and a stream with no matching event yields `Ok(None)` with the
warning log. -/
theorem C5_error_iff_build_failure_witness :
    crawl_page_uncached "https://a.test" (Except.ok ()) [] (fun _ => "md") 5
      = (Except.ok none,
         [⟨LogLevel.warn, "No matching page for https://a.test after 5ms"⟩]) := by
  have h := (C5_error_iff_build_failure "https://a.test" (Except.ok ())
      [] (fun _ => "md") 5).2 rfl rfl
  simpa using h

/-- C8: the health check always resolves to exactly one of two
states: 503 with the distinct "not configured" body when the engine
endpoint is unset, 200 "OK" when the bounded-timeout probe (the
shared HTTP client is built with a 3-second timeout) answers a
success status, and 503 "unreachable" for any non-success status,
connection failure or timeout. -/
theorem C8_health_check_two_states (url : Option String) (probe : ProbeResult) :
    ((health_check url probe).1 = 200 ∨ (health_check url probe).1 = 503) ∧
    (url = none →
      health_check url probe = (503, "Chromium connection URL not configured")) ∧
    (∀ u s, status_is_success s = true →
      health_check (some u) (ProbeResult.response s) = (200, "OK")) ∧
    (∀ u s, status_is_success s = false →
      health_check (some u) (ProbeResult.response s)
        = (503, "Chromium instance unreachable")) ∧
    (∀ u, health_check (some u) ProbeResult.failure
        = (503, "Chromium instance unreachable")) ∧
    http_client_timeout_secs = 3 := by
  refine ⟨?_, ?_, ?_, ?_, fun u => rfl, rfl⟩
  · cases url with
    | none => exact Or.inr rfl
    | some u =>
      cases probe with
      | failure => exact Or.inr rfl
      | response s =>
        by_cases hs : status_is_success s = true
        · exact Or.inl (by simp [health_check, hs])
        · exact Or.inr (by simp [health_check, hs])
  · intro h
    subst h
    rfl
  · intro u s hs
    simp [health_check, hs]
  · intro u s hs
    simp [health_check, hs]

/-- Witness for C8 at concrete inputs: a 200 probe answer yields
200 "OK", and an unset endpoint yields the "not configured" body. -/
theorem C8_health_check_two_states_witness :
    health_check (some "http://127.0.0.1:9222/json/version")
        (ProbeResult.response 200) = (200, "OK") ∧
    health_check none ProbeResult.failure
      = (503, "Chromium connection URL not configured") := by
  refine ⟨?_, ?_⟩
  · exact (C8_health_check_two_states (some "http://127.0.0.1:9222/json/version")
      (ProbeResult.response 200)).2.2.1 "http://127.0.0.1:9222/json/version" 200 rfl
  · exact (C8_health_check_two_states none ProbeResult.failure).2.1 rfl

/-- C9 (code bug): when installation of a shutdown signal handler
fails, the failure is indeed logged as a warning, but the branch
future then resolves, so the `select!` in `shutdown_signal` returns
and graceful shutdown begins — the server does not continue serving,
and the misleading "Shutdown signal received" line is logged although
no signal arrived.  The same holds for the SIGTERM branch. -/
theorem C9_install_failure_triggers_shutdown :
    (shutdown_signal (SignalOutcome.install_failed "permission denied")
        SignalOutcome.pending).completes = true ∧
    (shutdown_signal (SignalOutcome.install_failed "permission denied")
        SignalOutcome.pending).logs
      = [⟨LogLevel.warn, "Failed to install Ctrl+C handler: permission denied"⟩,
         ⟨LogLevel.info, "Shutdown signal received, stopping server."⟩] ∧
    (shutdown_signal SignalOutcome.pending
        (SignalOutcome.install_failed "permission denied")).completes = true := by
  exact ⟨rfl, rfl, rfl⟩

/-- A single insert leaves the configured bounds unchanged. -/
theorem cache_insert_bounds (c : MokaCache) (now : Nat) (k : String)
    (v : CachedPage) :
    (cache_insert c now k v).ttl_seconds = c.ttl_seconds ∧
    (cache_insert c now k v).max_entries = c.max_entries :=
  ⟨rfl, rfl⟩

/-- A single insert never leaves more than `max_entries` entries. -/
theorem cache_insert_length_le (c : MokaCache) (now : Nat) (k : String)
    (v : CachedPage) :
    (cache_insert c now k v).entries.length ≤ c.max_entries := by
  simp [cache_insert]

/-- Any sequence of inserts leaves the bounds unchanged. -/
theorem cache_insert_all_bounds (ops : List (String × CachedPage × Nat)) :
    ∀ c : MokaCache,
      (cache_insert_all c ops).ttl_seconds = c.ttl_seconds ∧
      (cache_insert_all c ops).max_entries = c.max_entries := by
  induction ops with
  | nil => exact fun c => ⟨rfl, rfl⟩
  | cons op rest ih =>
    intro c
    obtain ⟨k, v, t⟩ := op
    exact ih (cache_insert c t k v)

/-- C6: the cache maintains its invariant: after any sequence of
inserts starting from a state within capacity, the entry count never
exceeds `max_entries`; and a `get` of a key performed strictly after
`ttl_seconds` have elapsed since its `put` returns absent. -/
theorem C6_ttl_and_capacity_invariant (c : MokaCache)
    (ops : List (String × CachedPage × Nat))
    (hc : c.entries.length ≤ c.max_entries) :
    (cache_insert_all c ops).entries.length ≤ c.max_entries ∧
    (∀ now key v t, t + c.ttl_seconds < now →
      cache_get (cache_insert c t key v) now key = none) := by
  constructor
  · induction ops generalizing c with
    | nil => exact hc
    | cons op rest ih =>
      obtain ⟨k, v, t⟩ := op
      have h1 : (cache_insert c t k v).entries.length
          ≤ (cache_insert c t k v).max_entries :=
        cache_insert_length_le c t k v
      have h2 := ih (cache_insert c t k v) h1
      simpa using h2
  · intro now key v t hlt
    unfold cache_get cache_insert
    cases hcap : c.max_entries with
    | zero => simp
    | succ n =>
      simp only [List.take_succ_cons, List.find?]
      have hk : (key == key) = true := by simp
      simp only [hk]
      have : ¬ now < t + c.ttl_seconds := by omega
      simp [this]

/-- Witness for C6: a capacity-2 cache receiving three distinct keys
stays at two entries, and a get 11 seconds after a put under a
10-second TTL misses. -/
theorem C6_ttl_and_capacity_invariant_witness :
    (cache_insert_all (cache_builder 10 2)
        [("k1", ⟨"k1", "a"⟩, 0), ("k2", ⟨"k2", "b"⟩, 1),
         ("k3", ⟨"k3", "c"⟩, 2)]).entries.length ≤ 2 ∧
    cache_get (cache_insert (cache_builder 10 2) 0 "k1" ⟨"k1", "a"⟩) 11 "k1"
      = none := by
  have h := C6_ttl_and_capacity_invariant (cache_builder 10 2)
      [("k1", ⟨"k1", "a"⟩, 0), ("k2", ⟨"k2", "b"⟩, 1), ("k3", ⟨"k3", "c"⟩, 2)]
      (by decide)
  exact ⟨h.1, h.2 11 "k1" ⟨"k1", "a"⟩ 0 (by decide)⟩

/-- C7: a zero TTL or zero capacity is not rejected at startup — it
only emits a warning log and the cache is built all the same — and
the resulting cache degrades to an always-miss cache: any `get`
immediately following a `put` of the same or a different key returns
absent (for any cache state whose timestamps are not in the future). -/
theorem C7_degenerate_cache_always_misses (s : Settings)
    (hdeg : s.cache_ttl_seconds = 0 ∨ s.cache_max_entries = 0) :
    ((startup_cache s).1.length ≠ 0 ∧
      ∀ e ∈ (startup_cache s).1, e.level = LogLevel.warn) ∧
    (startup_cache s).2 = cache_builder s.cache_ttl_seconds s.cache_max_entries ∧
    (∀ (c : MokaCache) (now : Nat) (k k' : String) (v : CachedPage),
      c.ttl_seconds = s.cache_ttl_seconds →
      c.max_entries = s.cache_max_entries →
      (∀ e ∈ c.entries, e.2.inserted_at ≤ now) →
      cache_get (cache_insert c now k v) now k' = none) := by
  refine ⟨?_, rfl, ?_⟩
  · constructor
    · rcases hdeg with h | h <;> simp [startup_cache, h]
    · intro e he
      simp only [startup_cache, List.mem_append] at he
      rcases he with he | he <;>
      · revert he
        split <;> intro he <;> simp_all
  · intro c now k k' v httl hcap hts
    rcases hdeg with h | h
    · have httl0 : c.ttl_seconds = 0 := httl.trans h
      unfold cache_get
      cases hfind : (cache_insert c now k v).entries.find? (fun e => e.1 == k') with
      | none => rfl
      | some e =>
        obtain ⟨key1, entry⟩ := e
        have hmem : (key1, entry) ∈ (cache_insert c now k v).entries :=
          List.mem_of_find?_eq_some hfind
        have hmem' : (key1, entry) ∈
            ((k, (⟨v, now⟩ : CacheEntry)) ::
              c.entries.filter (fun e => e.1 ≠ k)).take c.max_entries := hmem
        have hmem2 := List.mem_of_mem_take hmem'
        have hle : entry.inserted_at ≤ now := by
          rcases List.mem_cons.mp hmem2 with hh | hh
          · have h2 : entry = ⟨v, now⟩ := congrArg Prod.snd hh
            rw [h2]
          · exact hts _ (List.mem_of_mem_filter hh)
        have hins : (cache_insert c now k v).ttl_seconds = 0 := httl0
        have hnot : ¬ now < entry.inserted_at + (cache_insert c now k v).ttl_seconds := by
          rw [hins]
          omega
        simp [hnot]
    · have hcap0 : c.max_entries = 0 := hcap.trans h
      unfold cache_get cache_insert
      simp [hcap0]

/-- Witness for C7: with TTL 0 (and capacity 5), startup emits the
warning and a get right after a put misses. -/
theorem C7_degenerate_cache_always_misses_witness :
    cache_get
      (cache_insert
        (startup_cache
          ⟨some "http://127.0.0.1:9222/json/version", 0, 5, 8080⟩).2
        3 "https://a.test" ⟨"https://a.test", "md"⟩)
      3 "https://a.test" = none := by
  have h := C7_degenerate_cache_always_misses
    ⟨some "http://127.0.0.1:9222/json/version", 0, 5, 8080⟩ (Or.inl rfl)
  exact h.2.2 _ 3 "https://a.test" "https://a.test" ⟨"https://a.test", "md"⟩
    rfl rfl (by intro e he; simp [startup_cache, cache_builder] at he)

/-- A key absent from the cache answers no hit at any instant. -/
theorem cache_get_eq_none_of_has_key_false (c : MokaCache) (now : Nat)
    (u : String) (h : cache_has_key c u = false) :
    cache_get c now u = none := by
  unfold cache_has_key at h
  unfold cache_get
  cases hfind : c.entries.find? (fun e => e.1 == u) with
  | none => rfl
  | some e => rw [hfind] at h; simp at h

/-- Inserting under a different key does not create an entry for an
absent key. -/
theorem cache_has_key_insert_of_ne (c : MokaCache) (now : Nat) (w u : String)
    (v : CachedPage) (hne : w ≠ u) (h : cache_has_key c u = false) :
    cache_has_key (cache_insert c now w v) u = false := by
  unfold cache_has_key at h ⊢
  have h' : c.entries.find? (fun e => e.1 == u) = none := by
    cases hf : c.entries.find? (fun e => e.1 == u) with
    | none => rfl
    | some e => rw [hf] at h; simp at h
  have hall := List.find?_eq_none.mp h'
  cases hf2 : (cache_insert c now w v).entries.find? (fun e => e.1 == u) with
  | none => rfl
  | some e =>
    have hmem : e ∈ (cache_insert c now w v).entries :=
      List.mem_of_find?_eq_some hf2
    have hp := List.find?_some hf2
    have he1 : e.1 = u := by simpa using hp
    have he2 : e ∈ (w, (⟨v, now⟩ : CacheEntry)) ::
        c.entries.filter (fun x => x.1 ≠ w) := List.mem_of_mem_take hmem
    rcases List.mem_cons.mp he2 with rfl | he3
    · exact absurd he1 hne
    · have hnot := hall e (List.mem_of_mem_filter he3)
      simp [he1] at hnot

/-- A URL that is absent from the cache and whose uncached crawl
produces no page contributes nothing and leaves the cache unchanged;
it still costs one engine invocation. -/
theorem handle_url_of_fails (env : CrawlEnv) (c : MokaCache) (now : Nat)
    (u : String) (hu : uncached_yields_none env u = true)
    (hc : cache_has_key c u = false) :
    handle_url env c now u = (none, c, 1) := by
  have hget := cache_get_eq_none_of_has_key_false c now u hc
  unfold handle_url
  rw [hget]
  unfold uncached_yields_none at hu
  cases hrun : run_uncached env u with
  | error e => rfl
  | ok o =>
    cases o with
    | none => rfl
    | some p => rw [hrun] at hu; simp at hu

/-- Processing any URL keeps a failing URL's key absent from the
cache. -/
theorem handle_url_preserves_absent (env : CrawlEnv) (c : MokaCache)
    (now : Nat) (w u : String) (hu : uncached_yields_none env u = true)
    (hc : cache_has_key c u = false) :
    cache_has_key (handle_url env c now w).2.1 u = false := by
  unfold handle_url
  cases hget : cache_get c now w with
  | some cached => exact hc
  | none =>
    cases hrun : run_uncached env w with
    | error e => exact hc
    | ok o =>
      cases o with
      | none => exact hc
      | some p =>
        by_cases hwu : w = u
        · subst hwu
          unfold uncached_yields_none at hu
          rw [hrun] at hu
          simp at hu
        · exact cache_has_key_insert_of_ne c now w u p hwu hc

/-- Collected responses are one per yielding URL. -/
theorem crawl_tasks_length_eq_yielded (env : CrawlEnv) (now : Nat)
    (urls : List String) :
    ∀ c : MokaCache,
      (crawl_tasks env c now urls).1.length = yielded_count env c now urls := by
  induction urls with
  | nil => intro c; rfl
  | cons url rest ih =>
    intro c
    simp only [crawl_tasks, yielded_count, List.length_append]
    rw [ih]
    cases hs : (handle_url env c now url).1 <;> simp [hs]

/-- The batch never returns more entries than it was given URLs. -/
theorem crawl_tasks_length_le (env : CrawlEnv) (now : Nat)
    (urls : List String) :
    ∀ c : MokaCache, (crawl_tasks env c now urls).1.length ≤ urls.length := by
  induction urls with
  | nil => intro c; exact Nat.le_refl 0
  | cons url rest ih =>
    intro c
    simp only [crawl_tasks, List.length_append, List.length_cons]
    have h1 : (handle_url env c now url).1.toList.length ≤ 1 := by
      cases hs : (handle_url env c now url).1 <;> simp [hs]
    have h2 := ih (handle_url env c now url).2.1
    omega

/-- Unfolding of `crawl_tasks` at a non-empty batch. -/
theorem crawl_tasks_cons (env : CrawlEnv) (c : MokaCache) (now : Nat)
    (url : String) (rest : List String) :
    crawl_tasks env c now (url :: rest)
      = ((handle_url env c now url).1.toList
            ++ (crawl_tasks env (handle_url env c now url).2.1 now rest).1,
         (crawl_tasks env (handle_url env c now url).2.1 now rest).2.1,
         (handle_url env c now url).2.2
            + (crawl_tasks env (handle_url env c now url).2.1 now rest).2.2) :=
  rfl

/-- Removing a failing, uncached URL from anywhere in the batch
changes neither the collected responses nor the final cache. -/
theorem crawl_tasks_drop_failing (env : CrawlEnv) (now : Nat) (u : String)
    (hu : uncached_yields_none env u = true) (post : List String) :
    ∀ (pre : List String) (c : MokaCache), cache_has_key c u = false →
      (crawl_tasks env c now (pre ++ u :: post)).1
        = (crawl_tasks env c now (pre ++ post)).1 ∧
      (crawl_tasks env c now (pre ++ u :: post)).2.1
        = (crawl_tasks env c now (pre ++ post)).2.1 := by
  intro pre
  induction pre with
  | nil =>
    intro c hc
    have hstep := handle_url_of_fails env c now u hu hc
    constructor
    · show (crawl_tasks env c now (u :: post)).1 = (crawl_tasks env c now post).1
      rw [crawl_tasks_cons]
      simp [hstep]
    · show (crawl_tasks env c now (u :: post)).2.1
        = (crawl_tasks env c now post).2.1
      rw [crawl_tasks_cons]
      simp [hstep]
  | cons w pre' ih =>
    intro c hc
    have hc1 := handle_url_preserves_absent env c now w u hu hc
    obtain ⟨ih1, ih2⟩ := ih (handle_url env c now w).2.1 hc1
    constructor
    · show (crawl_tasks env c now (w :: (pre' ++ u :: post))).1
        = (crawl_tasks env c now (w :: (pre' ++ post))).1
      rw [crawl_tasks_cons, crawl_tasks_cons]
      simp [ih1]
    · show (crawl_tasks env c now (w :: (pre' ++ u :: post))).2.1
        = (crawl_tasks env c now (w :: (pre' ++ post))).2.1
      rw [crawl_tasks_cons, crawl_tasks_cons]
      simp [ih2]

/-- C2: each URL's outcome is collected independently: a URL whose
crawl fails or yields no matching page is silently omitted — removing
it changes nothing for the other URLs — the response status is always
200, and the result array holds exactly one entry per URL that
yielded a page (so never more entries than request URLs). -/
theorem C2_partial_failure_isolation (env : CrawlEnv) (cache : MokaCache)
    (now : Nat) (pre post : List String) (u : String)
    (hu : uncached_yields_none env u = true)
    (hc : cache_has_key cache u = false) :
    (crawl_handler env cache now (pre ++ u :: post)).1 = 200 ∧
    (crawl_handler env cache now (pre ++ u :: post)).2.1
      = (crawl_handler env cache now (pre ++ post)).2.1 ∧
    (crawl_handler env cache now (pre ++ u :: post)).2.1.length
      = yielded_count env cache now (pre ++ u :: post) ∧
    (crawl_handler env cache now (pre ++ u :: post)).2.1.length
      ≤ (pre ++ u :: post).length := by
  refine ⟨rfl, ?_, ?_, ?_⟩
  · exact (crawl_tasks_drop_failing env now u hu post pre cache hc).1
  · exact crawl_tasks_length_eq_yielded env now (pre ++ u :: post) cache
  · exact crawl_tasks_length_le env now (pre ++ u :: post) cache

/-- Witness for C2 on the spec's own test vector: a batch of a good
and a bad URL answers 200 with exactly the good URL's entry, equal to
the batch without the bad URL. -/
theorem C2_partial_failure_isolation_witness :
    (crawl_handler sample_env (cache_builder 600 1000) 0
        ["https://good.test", "https://bad.test"]).1 = 200 ∧
    (crawl_handler sample_env (cache_builder 600 1000) 0
        ["https://good.test", "https://bad.test"]).2.1
      = (crawl_handler sample_env (cache_builder 600 1000) 0
          ["https://good.test"]).2.1 := by
  have h := C2_partial_failure_isolation sample_env (cache_builder 600 1000) 0
    ["https://good.test"] [] "https://bad.test" (by decide) (by decide)
  exact ⟨h.1, h.2.1⟩

/-- C3: for a URL absent from the cache whose crawl succeeds, two
requests for it within the TTL window cause exactly one engine
invocation: the first request crawls (one invocation) and caches, the
second short-circuits to the cached entry (zero invocations), and the
second response is identical — in particular byte-identical content —
to the first. -/
theorem C3_idempotent_cache_hit (env : CrawlEnv) (c : MokaCache) (u : String)
    (page : CachedPage) (now1 now2 : Nat)
    (hk : cache_has_key c u = false)
    (hrun : run_uncached env u = Except.ok (some page))
    (hcap : 0 < c.max_entries)
    (hfresh : now2 < now1 + c.ttl_seconds) :
    (crawl_tasks env c now1 [u]).2.2 = 1 ∧
    (crawl_tasks env (crawl_tasks env c now1 [u]).2.1 now2 [u]).2.2 = 0 ∧
    (crawl_tasks env (crawl_tasks env c now1 [u]).2.1 now2 [u]).1
      = (crawl_tasks env c now1 [u]).1 ∧
    (crawl_tasks env c now1 [u]).1
      = [{ page_content := page.content,
           metadata := { source := page.source } }] := by
  have hget1 := cache_get_eq_none_of_has_key_false c now1 u hk
  have hstep1 : handle_url env c now1 u
      = (some { page_content := page.content,
                metadata := { source := page.source } },
         cache_insert c now1 u page, 1) := by
    unfold handle_url
    rw [hget1, hrun]
  have ht1 : crawl_tasks env c now1 [u]
      = ([{ page_content := page.content,
            metadata := { source := page.source } }],
         cache_insert c now1 u page, 1) := by
    rw [crawl_tasks_cons, hstep1]
    rfl
  obtain ⟨n, hn⟩ : ∃ n, c.max_entries = n + 1 :=
    ⟨c.max_entries - 1, by omega⟩
  have hget2 : cache_get (cache_insert c now1 u page) now2 u = some page := by
    unfold cache_get cache_insert
    simp only [hn, List.take_succ_cons]
    rw [List.find?_cons_of_pos _ (by simp)]
    simp [hfresh]
  have hstep2 : handle_url env (cache_insert c now1 u page) now2 u
      = (some { page_content := page.content,
                metadata := { source := page.source } },
         cache_insert c now1 u page, 0) := by
    unfold handle_url
    rw [hget2]
  have ht2 : crawl_tasks env (cache_insert c now1 u page) now2 [u]
      = ([{ page_content := page.content,
            metadata := { source := page.source } }],
         cache_insert c now1 u page, 0) := by
    rw [crawl_tasks_cons, hstep2]
    rfl
  have hproj : (crawl_tasks env c now1 [u]).2.1 = cache_insert c now1 u page := by
    rw [ht1]
  refine ⟨?_, ?_, ?_, ?_⟩
  · rw [ht1]
  · rw [hproj, ht2]
  · rw [hproj, ht2, ht1]
  · rw [ht1]

/-- Witness for C3 on a concrete run: the URL is crawled once at
instant 10, and at instant 20 (within the 600-second TTL) the second
request answers the identical entry with no further engine call. -/
theorem C3_idempotent_cache_hit_witness :
    (crawl_tasks sample_env (cache_builder 600 1000) 10 ["https://a.test"]).2.2
      = 1 ∧
    (crawl_tasks sample_env
      (crawl_tasks sample_env (cache_builder 600 1000) 10
        ["https://a.test"]).2.1 20 ["https://a.test"]).2.2 = 0 ∧
    (crawl_tasks sample_env
      (crawl_tasks sample_env (cache_builder 600 1000) 10
        ["https://a.test"]).2.1 20 ["https://a.test"]).1
      = (crawl_tasks sample_env (cache_builder 600 1000) 10
          ["https://a.test"]).1 := by
  have h := C3_idempotent_cache_hit sample_env (cache_builder 600 1000)
    "https://a.test" ⟨"https://a.test", "md"⟩ 10 20 (by decide) rfl
    (by decide) (by decide)
  exact ⟨h.1, h.2.1, h.2.2.1⟩

/-- The uncached crawl path records the requesting URL itself as the
stored source (main.rs lines 179-182). -/
theorem run_uncached_source (env : CrawlEnv) (url : String) (p : CachedPage)
    (h : run_uncached env url = Except.ok (some p)) : p.source = url := by
  unfold run_uncached crawl_page_uncached at h
  cases hb : env.build url with
  | error e => rw [hb] at h; simp at h
  | ok v =>
    rw [hb] at h
    cases hc : crawl_single_page (env.events url) url with
    | none => rw [hc] at h; simp at h
    | some q =>
      rw [hc] at h
      simp only [Except.ok.injEq, Option.some.injEq] at h
      rw [← h]

/-- A fresh hit under a source-consistent cache answers a value whose
source is the looked-up key. -/
theorem cache_get_source (c : MokaCache) (now : Nat) (u : String)
    (v : CachedPage) (hcons : cache_sources_consistent c)
    (h : cache_get c now u = some v) : v.source = u := by
  unfold cache_get at h
  cases hf : c.entries.find? (fun e => e.1 == u) with
  | none => rw [hf] at h; exact Option.noConfusion h
  | some e =>
    rw [hf] at h
    obtain ⟨k0, entry⟩ := e
    have hmem := List.mem_of_find?_eq_some hf
    have hkey : k0 = u := by simpa using List.find?_some hf
    have hsrc : entry.value.source = k0 := hcons _ hmem
    have h2 : (if now < entry.inserted_at + c.ttl_seconds
        then some entry.value else none) = some v := h
    by_cases hfr : now < entry.inserted_at + c.ttl_seconds
    · rw [if_pos hfr] at h2
      have h3 := Option.some.inj h2
      rw [← h3, hsrc, hkey]
    · rw [if_neg hfr] at h2
      exact Option.noConfusion h2

/-- Inserting a value whose source equals its key preserves the
cache's key discipline. -/
theorem cache_insert_sources_consistent (c : MokaCache) (now : Nat)
    (k : String) (v : CachedPage) (hcons : cache_sources_consistent c)
    (hv : v.source = k) :
    cache_sources_consistent (cache_insert c now k v) := by
  intro e he
  have he2 : e ∈ (k, (⟨v, now⟩ : CacheEntry)) ::
      c.entries.filter (fun x => x.1 ≠ k) := List.mem_of_mem_take he
  rcases List.mem_cons.mp he2 with rfl | he3
  · exact hv
  · exact hcons e (List.mem_of_mem_filter he3)

/-- One task step answers only entries whose source is the processed
URL, and preserves the cache's key discipline. -/
theorem handle_url_source (env : CrawlEnv) (c : MokaCache) (now : Nat)
    (url : String) (hcons : cache_sources_consistent c) :
    (∀ r, (handle_url env c now url).1 = some r →
      r.metadata.source = url) ∧
    cache_sources_consistent (handle_url env c now url).2.1 := by
  unfold handle_url
  cases hget : cache_get c now url with
  | some cached =>
    refine ⟨?_, hcons⟩
    intro r hr
    simp only [Option.some.injEq] at hr
    rw [← hr]
    exact cache_get_source c now url cached hcons hget
  | none =>
    cases hrun : run_uncached env url with
    | error e => exact ⟨fun r hr => by simp at hr, hcons⟩
    | ok o =>
      cases o with
      | none => exact ⟨fun r hr => by simp at hr, hcons⟩
      | some p =>
        have hsrc := run_uncached_source env url p hrun
        refine ⟨?_, cache_insert_sources_consistent c now url p hcons hsrc⟩
        intro r hr
        simp only [Option.some.injEq] at hr
        rw [← hr]
        exact hsrc

/-- Every collected response's source is one of the batch URLs. -/
theorem crawl_tasks_sources (env : CrawlEnv) (now : Nat)
    (urls : List String) :
    ∀ c : MokaCache, cache_sources_consistent c →
      ∀ r ∈ (crawl_tasks env c now urls).1, r.metadata.source ∈ urls := by
  induction urls with
  | nil => intro c _ r hr; simp [crawl_tasks] at hr
  | cons url rest ih =>
    intro c hcons r hr
    rw [crawl_tasks_cons] at hr
    simp only [List.mem_append] at hr
    obtain ⟨hhead, htail⟩ := handle_url_source env c now url hcons
    rcases hr with hr | hr
    · cases hs : (handle_url env c now url).1 with
      | none => rw [hs] at hr; simp at hr
      | some r0 =>
        rw [hs] at hr
        simp at hr
        rw [hr, hhead r0 hs]
        exact List.mem_cons_self url rest
    · exact List.mem_cons_of_mem url (ih (handle_url env c now url).2.1 htail r hr)

/-- C10: for every batch request under a source-consistent cache,
every entry of the response has `metadata.source` equal to one of the
request's URLs: the uncached path records the requesting URL itself
as the source, and the cached path returns the source stored under
that URL as its key. -/
theorem C10_source_is_request_url (env : CrawlEnv) (c : MokaCache) (now : Nat)
    (urls : List String) (hcons : cache_sources_consistent c) :
    (∀ url p, run_uncached env url = Except.ok (some p) → p.source = url) ∧
    (∀ r ∈ (crawl_handler env c now urls).2.1, r.metadata.source ∈ urls) := by
  refine ⟨fun url p h => run_uncached_source env url p h, ?_⟩
  intro r hr
  exact crawl_tasks_sources env now urls c hcons r hr

/-- Witness for C10: a concrete batch produces an entry whose source
is the requested URL. -/
theorem C10_source_is_request_url_witness :
    (crawl_handler sample_env (cache_builder 600 1000) 0
        ["https://a.test"]).2.1
      = [{ page_content := "md", metadata := { source := "https://a.test" } }] ∧
    ({ page_content := "md", metadata := { source := "https://a.test" } }
        : CrawlResponse).metadata.source ∈ ["https://a.test"] := by
  have hres : (crawl_handler sample_env (cache_builder 600 1000) 0
      ["https://a.test"]).2.1
      = [{ page_content := "md",
           metadata := { source := "https://a.test" } }] := by decide
  refine ⟨hres, ?_⟩
  have h := C10_source_is_request_url sample_env (cache_builder 600 1000) 0
    ["https://a.test"] (by intro e he; simp [cache_builder] at he)
  exact h.2 _ (by rw [hres]; exact List.mem_singleton_self _)

end SpiderRs
